import Mathlib

/-!
Shallow embedding of `src/API/upload/index.js` (nc-media-pipeline): an HTTP
upload-broker handler with a B2 authorization cache, an upload path planner,
and two notification-email flows dispatched on `metadata.uploadType`.

Modelling conventions:
* JavaScript values that may be `undefined` are `Option _`; template-literal
  interpolation of a possibly-undefined value is `jsStr` (yielding the string
  "undefined"); a property/method access on `undefined` raises a `TypeError`,
  modelled by `jsGet` returning `Except.error (JsErr.typeError _)`.
* Each `Date.now()` call site receives its own time parameter; `crypto.randomBytes`
  receives its byte output as an explicit entropy input; the two axios network
  calls and the SendGrid send receive their outcomes as explicit inputs, and a
  `Trace` records which upstream calls were made and which emails were
  attempted/successfully sent.
* `Math.log(b) / Math.log(1024)` and the rounding arithmetic of
  `formatFileSize` are modelled over exact integers (`Nat.log`, exact
  rational rounding); IEEE-754 evaluation agrees with the exact values at
  every input discussed below.
* The static HTML template text of the two emails is elided: the rendered
  body is modelled as the ordered sequence of its dynamic interpolations
  (joined with a separator), which preserves every data flow and every
  possible exception of the original template expressions.
-/

namespace NCMedia

/-- Errors that can propagate to the top-level catch. `validationError` is the
distinct validation rejection named by the spec (§4.3/§7); the code itself
never constructs it. -/
inductive JsErr where
  | typeError (msg : String)
  | upstream (msg : String)
  | validationError (msg : String)
deriving DecidableEq

/-- The `error.message` read by the top-level catch block. -/
def JsErr.message : JsErr → String
  | .typeError m => m
  | .upstream m => m
  | .validationError m => m

/-- JS template-literal interpolation of a possibly-undefined string. -/
def jsStr : Option String → String
  | some s => s
  | none => "undefined"

/-- JS truthiness of a possibly-undefined string (empty string is falsy). -/
def jsTruthy : Option String → Bool
  | some s => s ≠ ""
  | none => false

/-- Property or method access on a possibly-undefined value: `undefined`
raises a `TypeError`. -/
def jsGet {α : Type} (field : String) : Option α → Except JsErr α
  | some x => .ok x
  | none => .error (.typeError ("Cannot read properties of undefined (reading " ++ field ++ ")"))

/-- The `context.bindingData.action || ''` coercion. -/
def jsOrEmpty : Option String → String
  | some s => s
  | none => ""

/-- Substring of an email address before the first `@`
(`editor.split('@')[0]`): the characters up to the first `@`, the whole
string when there is none. -/
def localPart (s : String) : String := ⟨s.data.takeWhile (fun c => c ≠ '@')⟩

/-- Characters matched by the JS regex class `\s` (ECMAScript WhiteSpace and
LineTerminator): the six ASCII whitespace characters plus NBSP U+00A0, the
Ogham space mark U+1680, the typographic spaces U+2000 through U+200A, the
line and paragraph separators U+2028/U+2029, the narrow no-break space
U+202F, the medium mathematical space U+205F, the ideographic space U+3000
and the BOM U+FEFF. -/
def isJsWhitespace (c : Char) : Bool :=
  c = ' ' || c = '\t' || c = '\n' || c = '\r' || c = Char.ofNat 11 || c = Char.ofNat 12 ||
  c = Char.ofNat 160 || c = Char.ofNat 5760 ||
  (8192 ≤ c.toNat && c.toNat ≤ 8202) ||
  c = Char.ofNat 8232 || c = Char.ofNat 8233 || c = Char.ofNat 8239 ||
  c = Char.ofNat 8287 || c = Char.ofNat 12288 || c = Char.ofNat 65279

/-- Worker for `collapseWs`: the boolean says whether the previous character
was inside a whitespace run. -/
def collapseWsAux : List Char → Bool → List Char
  | [], _ => []
  | c :: cs, inRun =>
    if isJsWhitespace c then
      if inRun then collapseWsAux cs true
      else '_' :: collapseWsAux cs true
    else c :: collapseWsAux cs false

/-- The sanitizer `.replace(/\s+/g, '_')`: each maximal whitespace run becomes
one underscore. -/
def collapseWs (s : String) : String := ⟨collapseWsAux s.data false⟩

/-- Lowercase hexadecimal digit for a value below 16. -/
def hexDigitChar (n : Nat) : Char :=
  if n < 10 then Char.ofNat (48 + n) else Char.ofNat (87 + n)

/-- Two lowercase hex characters of one byte. -/
def byteToHex (b : Fin 256) : List Char :=
  [hexDigitChar (b.val / 16), hexDigitChar (b.val % 16)]

/-- The encoding `crypto.randomBytes(k).toString('hex')`. -/
def bytesToHex (bs : List (Fin 256)) : String := ⟨(bs.map byteToHex).flatten⟩

/-- Character is a lowercase hexadecimal digit. -/
def isLowerHexChar (c : Char) : Bool :=
  (48 ≤ c.toNat && c.toNat ≤ 57) || (97 ≤ c.toNat && c.toNat ≤ 102)

/-- The unit table `['Bytes', 'KB', 'MB', 'GB']`. -/
def sizeUnits : List String := ["Bytes", "KB", "MB", "GB"]

/-- JS decimal rendering of the rational `n / 100` (the value produced by
`Math.round(x * 100) / 100`). -/
def renderHundredths (n : Nat) : String :=
  let ip := n / 100
  let fr := n % 100
  if fr = 0 then toString ip
  else if fr % 10 = 0 then toString ip ++ "." ++ toString (fr / 10)
  else if fr < 10 then toString ip ++ ".0" ++ toString fr
  else toString ip ++ "." ++ toString fr

/-- The function `formatFileSize(bytes)`. `Math.floor(Math.log b / Math.log 1024)`
is `Nat.log 1024 b` and `Math.round(b / 1024 ^ i * 100)` is exact rational
rounding (half away from zero on positives), `sizes[i]` past the table end is
`undefined` and is interpolated as such. -/
def formatFileSize (bytes : Option Nat) : String :=
  match bytes with
  | none => "0 Bytes"
  | some b =>
    if b = 0 then "0 Bytes"
    else
      let i := Nat.log 1024 b
      renderHundredths ((200 * b + 1024 ^ i) / (2 * 1024 ^ i)) ++ " " ++ sizeUnits.getD i "undefined"

/-- Environment-derived configuration values read by the handler. -/
structure Config where
  B2_BUCKET_NAME : String
  BOSS_EMAIL : String
  FROM_EMAIL : String
  APP_URL : String
deriving DecidableEq

/-- The two fields of the B2 authorize response the code reads. -/
structure B2AuthData where
  apiUrl : String
  authorizationToken : String
deriving DecidableEq

/-- The module-level mutable cell pair `b2Auth` / `b2AuthExpiry`. -/
structure AuthCache where
  b2Auth : Option B2AuthData
  b2AuthExpiry : Nat
deriving DecidableEq

/-- Result of one `authorizeB2()` call: its return-or-throw, the cache cells
after the call, and how many authorize network requests were issued. -/
structure AuthResult where
  result : Except JsErr B2AuthData
  cache : AuthCache
  networkCalls : Nat

/-- The non-cached arm of `authorizeB2`: perform the basic-auth authorize call
(outcome `net`), store the result and set expiry to now + 23 hours. On a
thrown network error the cells are left as they were. -/
def authorizeB2Fresh (tSet : Nat) (net : Except JsErr B2AuthData) (c : AuthCache) : AuthResult :=
  match net with
  | .ok d => ⟨.ok d, ⟨some d, tSet + 23 * 60 * 60 * 1000⟩, 1⟩
  | .error e => ⟨.error e, c, 1⟩

/-- The function `authorizeB2()`. `tCheck` is `Date.now()` at the cache check,
`tSet` is `Date.now()` when the new expiry is recorded. -/
def authorizeB2 (tCheck tSet : Nat) (net : Except JsErr B2AuthData) (c : AuthCache) : AuthResult :=
  match c.b2Auth with
  | some a =>
    if tCheck < c.b2AuthExpiry then ⟨.ok a, c, 0⟩
    else authorizeB2Fresh tSet net c
  | none => authorizeB2Fresh tSet net c

/-- The metadata object carried by both request kinds; every field may be
absent (`undefined`). -/
structure UploadMetadata where
  uploadType : Option String := none
  editor : Option String := none
  clientName : Option String := none
  shootDate : Option String := none
  footageType : Option String := none
  musicType : Option String := none
  instructions : Option String := none
  projectName : Option String := none
  editorName : Option String := none
  description : Option String := none
deriving DecidableEq

/-- One element of the `files` array supplied on `complete`. -/
structure UploadedFileRef where
  fileName : Option String := none
  filePath : Option String := none
  size : Option Nat := none
deriving DecidableEq

/-- The request body; `prepare` reads `fileName`/`fileSize`/`metadata`,
`complete` reads `metadata`/`files`. -/
structure ReqBody where
  fileName : Option String := none
  fileSize : Option Nat := none
  metadata : Option UploadMetadata := none
  files : Option (List UploadedFileRef) := none
deriving DecidableEq

/-- The message object handed to `sgMail.send` (`to` and `from` are reserved
tokens in Lean, so those fields are `toAddr` and `fromAddr`). -/
structure EmailMsg where
  toAddr : String
  fromAddr : String
  subject : String
  html : String
deriving DecidableEq

/-- Record of the upstream calls one invocation performed. -/
structure Trace where
  authNetworkCalls : Nat := 0
  uploadUrlCalls : Nat := 0
  sendAttempts : List EmailMsg := []
  sendSuccesses : List EmailMsg := []
deriving DecidableEq

/-- The two fields of the `b2_get_upload_url` response the code reads. -/
structure UploadUrlData where
  uploadUrl : String
  authorizationToken : String
deriving DecidableEq

/-- The 200-response body of `prepare`. -/
structure PrepareResponseBody where
  uploadUrl : String
  authToken : String
  fileId : String
  filePath : String
deriving DecidableEq

/-- One entry of `global.reviewData`. -/
structure ReviewEntry where
  metadata : UploadMetadata
  files : List UploadedFileRef
  timestamp : Nat
deriving DecidableEq

/-- The process-wide mutable state: the auth cache cells and the
`global.reviewData` map (modelled as an association list, newest first). -/
structure GlobalState where
  cache : AuthCache
  reviewData : List (String × ReviewEntry)
deriving DecidableEq

/-- External inputs consumed by one `prepare` invocation. -/
structure PrepareEnv where
  tAuthCheck : Nat
  tAuthSet : Nat
  timestamp : Nat
  rand4 : List (Fin 256)
  authNet : Except JsErr B2AuthData
  uploadUrlNet : B2AuthData → Except JsErr UploadUrlData

/-- External inputs consumed by one `complete` invocation. -/
structure CompleteEnv where
  rand16 : List (Fin 256)
  localeNow : String
  tStore : Nat
  sendResult : Except JsErr Unit

/-- The path computation of `handlePrepareUpload` (lines 64-70): branch on
`metadata.uploadType === 'raw'`; the method calls `.split` / `.replace` throw
on absent fields. -/
def planFilePath (fileName : Option String) (m : UploadMetadata) (timestamp : Nat) : Except JsErr String :=
  if m.uploadType = some "raw" then
    match jsGet "split" m.editor with
    | .error e => .error e
    | .ok editor =>
      match jsGet "replace" m.clientName with
      | .error e => .error e
      | .ok clientName =>
        .ok ("raw_uploads/" ++ localPart editor ++ "/" ++ toString timestamp ++ "_" ++
             collapseWs clientName ++ "/" ++ jsStr fileName)
  else
    match jsGet "replace" m.projectName with
    | .error e => .error e
    | .ok projectName =>
      .ok ("edited_uploads/review/" ++ toString timestamp ++ "_" ++
           collapseWs projectName ++ "/" ++ jsStr fileName)

/-- The function `handlePrepareUpload(context, req)`: authorize, compute
`fileId`/`filePath`, ask B2 for an upload URL, answer with the four-field
body. Errors propagate; the auth-cache cells keep whatever `authorizeB2`
left in them. -/
def handlePrepareUpload (body : ReqBody) (env : PrepareEnv) (c : AuthCache) :
    Except JsErr PrepareResponseBody × AuthCache × Trace :=
  let ar := authorizeB2 env.tAuthCheck env.tAuthSet env.authNet c
  match ar.result with
  | .error e => (.error e, ar.cache, { authNetworkCalls := ar.networkCalls })
  | .ok auth =>
    let fileId := toString env.timestamp ++ "_" ++ bytesToHex env.rand4
    match jsGet "uploadType" body.metadata with
    | .error e => (.error e, ar.cache, { authNetworkCalls := ar.networkCalls })
    | .ok m =>
      match planFilePath body.fileName m env.timestamp with
      | .error e => (.error e, ar.cache, { authNetworkCalls := ar.networkCalls })
      | .ok filePath =>
        match env.uploadUrlNet auth with
        | .error e => (.error e, ar.cache, { authNetworkCalls := ar.networkCalls, uploadUrlCalls := 1 })
        | .ok u =>
          (.ok { uploadUrl := u.uploadUrl, authToken := u.authorizationToken,
                 fileId := fileId, filePath := filePath },
           ar.cache,
           { authNetworkCalls := ar.networkCalls, uploadUrlCalls := 1 })

/-- One rendered download entry (name, public URL, human-readable size). -/
structure DownloadLink where
  name : String
  url : String
  size : String
deriving DecidableEq

/-- The `downloadLinks` mapping shared by both email builders. -/
def mkDownloadLink (cfg : Config) (f : UploadedFileRef) : DownloadLink :=
  { name := jsStr f.fileName,
    url := "https://f003.backblazeb2.com/file/" ++ cfg.B2_BUCKET_NAME ++ "/" ++ jsStr f.filePath,
    size := formatFileSize f.size }

/-- UTF-8 bytes of a code point. -/
def utf8Bytes (c : Char) : List Nat :=
  let n := c.toNat
  if n < 128 then [n]
  else if n < 2048 then [192 + n / 64, 128 + n % 64]
  else if n < 65536 then [224 + n / 4096, 128 + (n / 64) % 64, 128 + n % 64]
  else [240 + n / 262144, 128 + (n / 4096) % 64, 128 + (n / 64) % 64, 128 + n % 64]

/-- Uppercase hexadecimal digit for a value below 16. -/
def hexDigitUpper (n : Nat) : Char :=
  if n < 10 then Char.ofNat (48 + n) else Char.ofNat (55 + n)

/-- Code points `encodeURIComponent` leaves unescaped besides ASCII
alphanumerics: hyphen, underscore, dot, bang, tilde, star, apostrophe and the
two parentheses. -/
def uriUnescapedCodes : List Nat := [45, 95, 46, 33, 126, 42, 39, 40, 41]

/-- Encoding of one character under `encodeURIComponent`. -/
def encodeURIChar (c : Char) : List Char :=
  if c.isAlphanum || uriUnescapedCodes.contains c.toNat then [c]
  else ((utf8Bytes c).map (fun b => ['%', hexDigitUpper (b / 16), hexDigitUpper (b % 16)])).flatten

/-- The JS builtin `encodeURIComponent`. -/
def encodeURIComponent (s : String) : String := ⟨(s.data.map encodeURIChar).flatten⟩

/-- Dynamic fragments of the editor-assignment HTML body, in template order
(greeting name, intro client, details list, optional music type, instructions
with newlines turned into breaks, one fragment per download entry, the
call-to-action link). `metadata.instructions.replace` throws when the field
is absent. -/
def renderEditorHtmlParts (cfg : Config) (m : UploadMetadata) (editorName : String)
    (links : List DownloadLink) : Except JsErr (List String) :=
  match jsGet "replace" m.instructions with
  | .error e => .error e
  | .ok instr =>
    .ok ([editorName, jsStr m.clientName, jsStr m.clientName, jsStr m.shootDate, jsStr m.footageType]
      ++ (if jsTruthy m.musicType then [jsStr m.musicType] else [])
      ++ [instr.replace "\n" "<br>"]
      ++ links.map (fun l => l.url ++ "|" ++ l.name ++ "|" ++ l.size)
      ++ [cfg.APP_URL])

/-- The function `sendEditorEmail(metadata, files)`: throws on absent
`editor`, absent `files` or absent `instructions`, otherwise attempts exactly
one send to `metadata.editor` with the `New Footage` subject. -/
def sendEditorEmail (cfg : Config) (m : UploadMetadata) (filesOpt : Option (List UploadedFileRef))
    (env : CompleteEnv) : Except JsErr Unit × Trace :=
  match jsGet "split" m.editor with
  | .error e => (.error e, {})
  | .ok editorEmail =>
    let editorName := localPart editorEmail
    match jsGet "map" filesOpt with
    | .error e => (.error e, {})
    | .ok files =>
      let links := files.map (mkDownloadLink cfg)
      match renderEditorHtmlParts cfg m editorName links with
      | .error e => (.error e, {})
      | .ok parts =>
        let msg : EmailMsg :=
          { toAddr := editorEmail, fromAddr := cfg.FROM_EMAIL,
            subject := "New Footage: " ++ jsStr m.clientName ++ " - " ++ jsStr m.footageType,
            html := String.intercalate "|" parts }
        match env.sendResult with
        | .ok _ => (.ok (), { sendAttempts := [msg], sendSuccesses := [msg] })
        | .error e => (.error e, { sendAttempts := [msg], sendSuccesses := [] })

/-- Dynamic fragments of the review-request HTML body, in template order
(project details list, render-time timestamp, optional editor notes, one
fragment per download entry, the approve and revise links carrying the review
id and the URL-encoded project name). Total: no field access here can throw. -/
def renderReviewHtmlParts (cfg : Config) (m : UploadMetadata) (links : List DownloadLink)
    (reviewId : String) (localeNow : String) : List String :=
  [jsStr m.projectName, jsStr m.clientName, jsStr m.editorName, localeNow]
    ++ (if jsTruthy m.description then [(jsStr m.description).replace "\n" "<br>"] else [])
    ++ links.map (fun l => l.url ++ "|" ++ l.name ++ "|" ++ l.size)
    ++ [cfg.APP_URL ++ "/api/review?action=approve&id=" ++ reviewId ++ "&project=" ++
          encodeURIComponent (jsStr m.projectName),
        cfg.APP_URL ++ "/api/review?action=revise&id=" ++ reviewId ++ "&project=" ++
          encodeURIComponent (jsStr m.projectName)]

/-- The function `sendReviewEmail(metadata, files)`: maps the files, draws a
fresh 16-byte review id, attempts exactly one send to the configured boss
address, and only after a successful send records
`{metadata, files, timestamp}` under the review id in `global.reviewData`. -/
def sendReviewEmail (cfg : Config) (m : UploadMetadata) (filesOpt : Option (List UploadedFileRef))
    (env : CompleteEnv) (rd : List (String × ReviewEntry)) :
    Except JsErr Unit × List (String × ReviewEntry) × Trace :=
  match jsGet "map" filesOpt with
  | .error e => (.error e, rd, {})
  | .ok files =>
    let links := files.map (mkDownloadLink cfg)
    let reviewId := bytesToHex env.rand16
    let msg : EmailMsg :=
      { toAddr := cfg.BOSS_EMAIL, fromAddr := cfg.FROM_EMAIL,
        subject := "Review Required: " ++ jsStr m.projectName,
        html := String.intercalate "|" (renderReviewHtmlParts cfg m links reviewId env.localeNow) }
    match env.sendResult with
    | .error e => (.error e, rd, { sendAttempts := [msg] })
    | .ok _ =>
      (.ok (), (reviewId, ⟨m, files, env.tStore⟩) :: rd,
       { sendAttempts := [msg], sendSuccesses := [msg] })

/-- The function `handleUploadComplete(context, req)`: dispatch on
`metadata.uploadType === 'raw'` between the two send paths. -/
def handleUploadComplete (cfg : Config) (body : ReqBody) (env : CompleteEnv)
    (rd : List (String × ReviewEntry)) :
    Except JsErr Unit × List (String × ReviewEntry) × Trace :=
  match jsGet "uploadType" body.metadata with
  | .error e => (.error e, rd, {})
  | .ok m =>
    if m.uploadType = some "raw" then
      let r := sendEditorEmail cfg m body.files env
      (r.1, rd, r.2)
    else
      sendReviewEmail cfg m body.files env rd

/-- Response bodies the handler can produce. -/
inductive ResBody where
  | prepared (p : PrepareResponseBody)
  | completedOk (message : String)
  | errorBody (msg : String)
deriving DecidableEq

/-- The `context.res` value. -/
structure HttpRes where
  status : Nat
  body : ResBody
deriving DecidableEq

/-- The exported handler `module.exports`: route on the action discriminator,
convert a thrown error into a 500 with the raw message, answer 400
`Invalid action` on anything else. -/
def uploadHandler (cfg : Config) (action : Option String) (body : ReqBody)
    (penv : PrepareEnv) (cenv : CompleteEnv) (s : GlobalState) :
    HttpRes × GlobalState × Trace :=
  let a := jsOrEmpty action
  if a = "prepare" then
    let r := handlePrepareUpload body penv s.cache
    match r.1 with
    | .ok p => (⟨200, .prepared p⟩, { s with cache := r.2.1 }, r.2.2)
    | .error e => (⟨500, .errorBody e.message⟩, { s with cache := r.2.1 }, r.2.2)
  else if a = "complete" then
    let r := handleUploadComplete cfg body cenv s.reviewData
    match r.1 with
    | .ok _ => (⟨200, .completedOk "Notifications sent"⟩, { s with reviewData := r.2.1 }, r.2.2)
    | .error e => (⟨500, .errorBody e.message⟩, { s with reviewData := r.2.1 }, r.2.2)
  else
    (⟨400, .errorBody "Invalid action"⟩, s, {})

/-- Success test on a handler result (a `JsErr`-throwing computation). -/
def resultOk {α : Type} : Except JsErr α → Bool
  | .ok _ => true
  | .error _ => false

/-- Validation-failure test: does a result carry the distinct
`validationError` rejection? -/
def isValidationFailure {α : Type} : Except JsErr α → Bool
  | .error (.validationError _) => true
  | _ => false

set_option maxRecDepth 8192 in
lemma hexDigitChar_inj : ∀ x y : Fin 16, hexDigitChar x.val = hexDigitChar y.val → x = y := by
  decide

lemma byteToHex_inj (b1 b2 : Fin 256) (h : byteToHex b1 = byteToHex b2) : b1 = b2 := by
  have hb1 := b1.isLt
  have hb2 := b2.isLt
  simp only [byteToHex, List.cons.injEq, and_true] at h
  obtain ⟨h1, h2⟩ := h
  have e1 := hexDigitChar_inj ⟨b1.val / 16, by omega⟩ ⟨b2.val / 16, by omega⟩ h1
  have e2 := hexDigitChar_inj ⟨b1.val % 16, by omega⟩ ⟨b2.val % 16, by omega⟩ h2
  have q1 : b1.val / 16 = b2.val / 16 := congrArg Fin.val e1
  have q2 : b1.val % 16 = b2.val % 16 := congrArg Fin.val e2
  exact Fin.ext (by omega)

set_option maxRecDepth 8192 in
lemma byteToHex_hex : ∀ b : Fin 256, (byteToHex b).all isLowerHexChar = true := by decide

lemma hexBlocks_inj : ∀ bs1 bs2 : List (Fin 256),
    (bs1.map byteToHex).flatten = (bs2.map byteToHex).flatten → bs1 = bs2
  | [], [], _ => rfl
  | [], _ :: _, h => by simp [byteToHex] at h
  | _ :: _, [], h => by simp [byteToHex] at h
  | b1 :: t1, b2 :: t2, h => by
    simp only [List.map_cons, List.flatten_cons] at h
    obtain ⟨h1, h2⟩ := List.append_inj h (by simp [byteToHex])
    have hb := byteToHex_inj b1 b2 h1
    have ht := hexBlocks_inj t1 t2 h2
    rw [hb, ht]

lemma bytesToHex_inj {bs1 bs2 : List (Fin 256)} (h : bytesToHex bs1 = bytesToHex bs2) :
    bs1 = bs2 :=
  hexBlocks_inj bs1 bs2 (congrArg String.data h)

lemma hexBlocks_length : ∀ bs : List (Fin 256),
    ((bs.map byteToHex).flatten).length = 2 * bs.length := by
  intro bs
  induction bs with
  | nil => simp
  | cons b t ih => simp [byteToHex, ih]; omega

lemma bytesToHex_length (bs : List (Fin 256)) : (bytesToHex bs).length = 2 * bs.length :=
  hexBlocks_length bs

lemma hexBlocks_hex : ∀ bs : List (Fin 256),
    ((bs.map byteToHex).flatten).all isLowerHexChar = true := by
  intro bs
  induction bs with
  | nil => simp
  | cons b t ih =>
    simp only [List.map_cons, List.flatten_cons, List.all_append]
    rw [byteToHex_hex b, ih]
    rfl

lemma bytesToHex_hex (bs : List (Fin 256)) : (bytesToHex bs).data.all isLowerHexChar = true :=
  hexBlocks_hex bs

/-- Claim C2: `authorizeB2` returns the cached value with no network call
while the current time is strictly before the recorded expiry; otherwise it
performs the authorize call, stores the result with expiry now + 23 hours and
returns it; hence a second call within the 23-hour window of a fresh
authorization performs zero additional network calls and returns the same
value. -/
theorem authorizeB2_cache_contract (tCheck tSet t2c t2s : Nat)
    (net net2 : Except JsErr B2AuthData) (c : AuthCache) (a d : B2AuthData) :
    (c.b2Auth = some a → tCheck < c.b2AuthExpiry →
      authorizeB2 tCheck tSet net c = ⟨.ok a, c, 0⟩) ∧
    ((c.b2Auth = none ∨ c.b2AuthExpiry ≤ tCheck) → net = .ok d →
      authorizeB2 tCheck tSet net c = ⟨.ok d, ⟨some d, tSet + 23 * 60 * 60 * 1000⟩, 1⟩) ∧
    ((c.b2Auth = none ∨ c.b2AuthExpiry ≤ tCheck) → net = .ok d →
      t2c < tSet + 23 * 60 * 60 * 1000 →
      authorizeB2 t2c t2s net2 (authorizeB2 tCheck tSet net c).cache =
        ⟨.ok d, (authorizeB2 tCheck tSet net c).cache, 0⟩) := by
  have fresh : (c.b2Auth = none ∨ c.b2AuthExpiry ≤ tCheck) → net = .ok d →
      authorizeB2 tCheck tSet net c = ⟨.ok d, ⟨some d, tSet + 23 * 60 * 60 * 1000⟩, 1⟩ := by
    intro h hnet
    rcases h with h | h
    · simp [authorizeB2, h, authorizeB2Fresh, hnet]
    · cases hb : c.b2Auth with
      | none => simp [authorizeB2, hb, authorizeB2Fresh, hnet]
      | some a2 => simp [authorizeB2, hb, Nat.not_lt.mpr h, authorizeB2Fresh, hnet]
  refine ⟨?_, fresh, ?_⟩
  · intro h1 h2
    simp [authorizeB2, h1, h2]
  · intro h hnet ht2
    rw [fresh h hnet]
    simp [authorizeB2, ht2]

/-- Witness for C2 at concrete inputs: an empty cache at time 0, a successful
authorize response, and a second call 1 millisecond later. -/
theorem authorizeB2_cache_contract_witness :
    authorizeB2 0 0 (.ok ⟨"api", "tok"⟩) ⟨none, 0⟩ =
      ⟨.ok ⟨"api", "tok"⟩, ⟨some ⟨"api", "tok"⟩, 82800000⟩, 1⟩ ∧
    authorizeB2 1 1 (.error (.upstream "down"))
        (authorizeB2 0 0 (.ok ⟨"api", "tok"⟩) ⟨none, 0⟩).cache =
      ⟨.ok ⟨"api", "tok"⟩, (authorizeB2 0 0 (.ok ⟨"api", "tok"⟩) ⟨none, 0⟩).cache, 0⟩ := by
  refine ⟨?_, ?_⟩
  · exact (authorizeB2_cache_contract 0 0 1 1 (.ok ⟨"api", "tok"⟩) (.error (.upstream "down"))
      ⟨none, 0⟩ ⟨"api", "tok"⟩ ⟨"api", "tok"⟩).2.1 (Or.inl rfl) rfl
  · exact (authorizeB2_cache_contract 0 0 1 1 (.ok ⟨"api", "tok"⟩) (.error (.upstream "down"))
      ⟨none, 0⟩ ⟨"api", "tok"⟩ ⟨"api", "tok"⟩).2.2 (Or.inl rfl) rfl (by norm_num)

/-- Claim C7: `formatFileSize` renders absent or zero byte counts as
`0 Bytes`; a positive count is scaled by the unit whose index i satisfies
1024 ^ i ≤ bytes < 1024 ^ (i + 1), rounded to two decimal places and rendered
as value-space-unit; in particular 1536 gives `1.5 KB` and 2^30 gives `1 GB`. -/
theorem formatFileSize_contract :
    formatFileSize none = "0 Bytes" ∧
    formatFileSize (some 0) = "0 Bytes" ∧
    (∀ b i, 0 < b → 1024 ^ i ≤ b → b < 1024 ^ (i + 1) →
      formatFileSize (some b) =
        renderHundredths ((200 * b + 1024 ^ i) / (2 * 1024 ^ i)) ++ " " ++
          sizeUnits.getD i "undefined") ∧
    formatFileSize (some 1536) = "1.5 KB" ∧
    formatFileSize (some 1073741824) = "1 GB" := by
  have gen : ∀ b i, 0 < b → 1024 ^ i ≤ b → b < 1024 ^ (i + 1) →
      formatFileSize (some b) =
        renderHundredths ((200 * b + 1024 ^ i) / (2 * 1024 ^ i)) ++ " " ++
          sizeUnits.getD i "undefined" := by
    intro b i hb hle hlt
    have hlog : Nat.log 1024 b = i := Nat.log_eq_of_pow_le_of_lt_pow hle hlt
    simp [formatFileSize, Nat.pos_iff_ne_zero.mp hb, hlog]
  refine ⟨rfl, rfl, gen, ?_, ?_⟩
  · rw [gen 1536 1 (by norm_num) (by norm_num) (by norm_num)]
    rfl
  · rw [gen 1073741824 3 (by norm_num) (by norm_num) (by norm_num)]
    rfl

/-- Witness for C7: the general unit-selection clause instantiated at
999999 bytes with unit index 1 (KB). -/
theorem formatFileSize_contract_witness :
    (0 : Nat) < 999999 ∧ 1024 ^ 1 ≤ 999999 ∧ 999999 < 1024 ^ 2 ∧
    formatFileSize (some 999999) =
      renderHundredths ((200 * 999999 + 1024 ^ 1) / (2 * 1024 ^ 1)) ++ " " ++
        sizeUnits.getD 1 "undefined" :=
  ⟨by norm_num, by norm_num, by norm_num,
    formatFileSize_contract.2.2.1 999999 1 (by norm_num) (by norm_num) (by norm_num)⟩

/-- Claim C9: any action discriminator other than `prepare` or `complete`
(including an absent one) yields status 400 with body `Invalid action`,
leaves the whole process state unchanged, and performs no upstream call. -/
theorem invalid_action_rejected (cfg : Config) (action : Option String) (body : ReqBody)
    (penv : PrepareEnv) (cenv : CompleteEnv) (s : GlobalState)
    (h1 : jsOrEmpty action ≠ "prepare") (h2 : jsOrEmpty action ≠ "complete") :
    uploadHandler cfg action body penv cenv s =
      (⟨400, .errorBody "Invalid action"⟩, s, ⟨0, 0, [], []⟩) := by
  simp [uploadHandler, h1, h2]

/-- Witness for C9 at the concrete action `delete`. -/
theorem invalid_action_rejected_witness :
    uploadHandler ⟨"b", "boss@x.com", "wf@x.com", "https://app"⟩ (some "delete") {}
      ⟨0, 0, 0, [], .error (.upstream "n"), fun _ => .error (.upstream "n")⟩
      ⟨[], "t", 0, .ok ()⟩ ⟨⟨none, 0⟩, []⟩ =
      (⟨400, .errorBody "Invalid action"⟩, ⟨⟨none, 0⟩, []⟩, ⟨0, 0, [], []⟩) :=
  invalid_action_rejected _ _ _ _ _ _ (by decide) (by decide)

/-- Type-error test: does a result carry a thrown `TypeError`? -/
def isTypeFailure {α : Type} : Except JsErr α → Bool
  | .error (.typeError _) => true
  | _ => false

lemma authorizeB2_result_ok (tC tS : Nat) (a : B2AuthData) (c : AuthCache) :
    ∃ d, (authorizeB2 tC tS (.ok a) c).result = .ok d := by
  unfold authorizeB2 authorizeB2Fresh
  cases c.b2Auth with
  | none => exact ⟨a, rfl⟩
  | some a2 =>
    by_cases h : tC < c.b2AuthExpiry
    · exact ⟨a2, by simp [h]⟩
    · exact ⟨a, by simp [h]⟩

/-- Claim C1: the notification flow of a complete request is selected solely
by the `uploadType` discriminator: `raw` runs the editor-assignment send path
and any other value (present or absent) runs the review-request send path. -/
theorem complete_routes_on_uploadType (cfg : Config) (body : ReqBody) (env : CompleteEnv)
    (rd : List (String × ReviewEntry)) (m : UploadMetadata)
    (hm : body.metadata = some m) :
    handleUploadComplete cfg body env rd =
      if m.uploadType = some "raw" then
        ((sendEditorEmail cfg m body.files env).1, rd, (sendEditorEmail cfg m body.files env).2)
      else
        sendReviewEmail cfg m body.files env rd := by
  simp only [handleUploadComplete, hm, jsGet]

/-- Witness for C1: a complete request with `uploadType = 'edited'` runs the
review-request path. -/
theorem complete_routes_on_uploadType_witness :
    handleUploadComplete ⟨"b", "boss@x.com", "wf@x.com", "https://app"⟩
        { metadata := some { uploadType := some "edited", projectName := some "P" },
          files := some [] }
        ⟨[], "t", 7, .ok ()⟩ [] =
      sendReviewEmail ⟨"b", "boss@x.com", "wf@x.com", "https://app"⟩
        { uploadType := some "edited", projectName := some "P" } (some [])
        ⟨[], "t", 7, .ok ()⟩ [] := by
  have h := complete_routes_on_uploadType ⟨"b", "boss@x.com", "wf@x.com", "https://app"⟩
    { metadata := some { uploadType := some "edited", projectName := some "P" },
      files := some [] }
    ⟨[], "t", 7, .ok ()⟩ [] { uploadType := some "edited", projectName := some "P" } rfl
  simpa using h

/-- Claim C3: on a successful prepare, `fileId` is the millisecond timestamp,
an underscore, and 8 lowercase hex characters drawn from the 4 random bytes;
the raw variant's `filePath` is
`raw_uploads/<editor-local-part>/<ts>_<sanitized-client>/<fileName>` and any
other variant's is `edited_uploads/review/<ts>_<sanitized-project>/<fileName>`,
with the same single timestamp sample embedded in both `fileId` and
`filePath`. -/
theorem prepare_path_planner_contract (body : ReqBody) (env : PrepareEnv) (c : AuthCache)
    (m : UploadMetadata) (a : B2AuthData) (u : UploadUrlData)
    (hm : body.metadata = some m)
    (hauth : env.authNet = .ok a)
    (hurl : ∀ ad, env.uploadUrlNet ad = .ok u)
    (hlen : env.rand4.length = 4) :
    (bytesToHex env.rand4).length = 8 ∧
    (bytesToHex env.rand4).data.all isLowerHexChar = true ∧
    (∀ e cn, m.uploadType = some "raw" → m.editor = some e → m.clientName = some cn →
      (handlePrepareUpload body env c).1 =
        .ok ⟨u.uploadUrl, u.authorizationToken,
             toString env.timestamp ++ "_" ++ bytesToHex env.rand4,
             "raw_uploads/" ++ localPart e ++ "/" ++ toString env.timestamp ++ "_" ++
               collapseWs cn ++ "/" ++ jsStr body.fileName⟩) ∧
    (∀ pn, m.uploadType ≠ some "raw" → m.projectName = some pn →
      (handlePrepareUpload body env c).1 =
        .ok ⟨u.uploadUrl, u.authorizationToken,
             toString env.timestamp ++ "_" ++ bytesToHex env.rand4,
             "edited_uploads/review/" ++ toString env.timestamp ++ "_" ++
               collapseWs pn ++ "/" ++ jsStr body.fileName⟩) := by
  obtain ⟨d, hd⟩ := authorizeB2_result_ok env.tAuthCheck env.tAuthSet a c
  rw [← hauth] at hd
  refine ⟨by rw [bytesToHex_length, hlen], bytesToHex_hex env.rand4, ?_, ?_⟩
  · intro e cn ht he hcn
    simp [handlePrepareUpload, hd, hm, jsGet, planFilePath, ht, he, hcn, hurl]
  · intro pn ht hpn
    simp [handlePrepareUpload, hd, hm, jsGet, planFilePath, ht, hpn, hurl]

/-- Witness for C3 at a concrete raw request (`jane@x.com`, client
`Acme Co`, file `clip.mp4`, timestamp 1700000000000, bytes ff 00 ab 12). -/
theorem prepare_path_planner_contract_witness :
    (handlePrepareUpload
        { fileName := some "clip.mp4",
          metadata := some { uploadType := some "raw", editor := some "jane@x.com",
                             clientName := some "Acme Co" } }
        ⟨3, 3, 1700000000000, [255, 0, 171, 18], .ok ⟨"api", "tok"⟩, fun _ => .ok ⟨"u", "t"⟩⟩
        ⟨none, 0⟩).1 =
      .ok ⟨"u", "t", "1700000000000_ff00ab12",
           "raw_uploads/jane/1700000000000_Acme_Co/clip.mp4"⟩ := by
  have h := (prepare_path_planner_contract
    { fileName := some "clip.mp4",
      metadata := some { uploadType := some "raw", editor := some "jane@x.com",
                         clientName := some "Acme Co" } }
    ⟨3, 3, 1700000000000, [255, 0, 171, 18], .ok ⟨"api", "tok"⟩, fun _ => .ok ⟨"u", "t"⟩⟩
    ⟨none, 0⟩ { uploadType := some "raw", editor := some "jane@x.com",
                clientName := some "Acme Co" }
    ⟨"api", "tok"⟩ ⟨"u", "t"⟩ rfl rfl (fun _ => rfl) rfl).2.2.1
    "jane@x.com" "Acme Co" rfl rfl rfl
  rw [h]
  rfl

/-- Claim C5 as stated is false on the code: a raw prepare request missing
`editor` does not produce the distinct validation rejection; it fails with a
downstream `TypeError` from `metadata.editor.split`. -/
theorem prepare_missing_fields_no_validation_error :
    isValidationFailure
      (handlePrepareUpload
        { fileName := some "clip.mp4", metadata := some { uploadType := some "raw" } }
        ⟨0, 0, 5, [0, 0, 0, 0], .ok ⟨"api", "tok"⟩, fun _ => .ok ⟨"u", "t"⟩⟩
        ⟨none, 0⟩).1 = false ∧
    isTypeFailure
      (handlePrepareUpload
        { fileName := some "clip.mp4", metadata := some { uploadType := some "raw" } }
        ⟨0, 0, 5, [0, 0, 0, 0], .ok ⟨"api", "tok"⟩, fun _ => .ok ⟨"u", "t"⟩⟩
        ⟨none, 0⟩).1 = true :=
  ⟨rfl, rfl⟩

/-- Claim C5 amended: a prepare call whose declared variant is missing a
required metadata field does fail, but with a downstream TypeError-class
failure (surfaced by the boundary as a 500), never with a distinct
ValidationError. -/
theorem prepare_missing_fields_type_error (body : ReqBody) (env : PrepareEnv) (c : AuthCache)
    (m : UploadMetadata) (a : B2AuthData)
    (hm : body.metadata = some m) (hauth : env.authNet = .ok a) :
    (m.uploadType = some "raw" → m.editor = none →
      isTypeFailure (handlePrepareUpload body env c).1 = true) ∧
    (∀ e, m.uploadType = some "raw" → m.editor = some e → m.clientName = none →
      isTypeFailure (handlePrepareUpload body env c).1 = true) ∧
    (m.uploadType ≠ some "raw" → m.projectName = none →
      isTypeFailure (handlePrepareUpload body env c).1 = true) ∧
    (∀ (α : Type) (r : Except JsErr α), isTypeFailure r = true → isValidationFailure r = false) := by
  obtain ⟨d, hd⟩ := authorizeB2_result_ok env.tAuthCheck env.tAuthSet a c
  rw [← hauth] at hd
  refine ⟨?_, ?_, ?_, ?_⟩
  · intro ht he
    simp [handlePrepareUpload, hd, hm, jsGet, planFilePath, ht, he, isTypeFailure]
  · intro e ht he hcn
    simp [handlePrepareUpload, hd, hm, jsGet, planFilePath, ht, he, hcn, isTypeFailure]
  · intro ht hpn
    simp [handlePrepareUpload, hd, hm, jsGet, planFilePath, ht, hpn, isTypeFailure]
  · intro α r h
    cases r with
    | ok v => simp [isTypeFailure] at h
    | error e => cases e <;> simp [isTypeFailure, isValidationFailure] at h ⊢

/-- Witness for the amended C5 at a concrete raw request missing `editor`. -/
theorem prepare_missing_fields_type_error_witness :
    isTypeFailure
      (handlePrepareUpload
        { fileName := some "a.mp4", metadata := some { uploadType := some "raw" } }
        ⟨9, 9, 42, [1, 2, 3, 4], .ok ⟨"api2", "tok2"⟩, fun _ => .ok ⟨"u2", "t2"⟩⟩
        ⟨none, 0⟩).1 = true :=
  (prepare_missing_fields_type_error
    { fileName := some "a.mp4", metadata := some { uploadType := some "raw" } }
    ⟨9, 9, 42, [1, 2, 3, 4], .ok ⟨"api2", "tok2"⟩, fun _ => .ok ⟨"u2", "t2"⟩⟩
    ⟨none, 0⟩ { uploadType := some "raw" } ⟨"api2", "tok2"⟩ rfl rfl).1 rfl rfl

/-- Claim C4: the raw-variant complete sends its single email to
`metadata.editor` with subject `New Footage: <clientName> - <footageType>`;
the edited-variant complete sends its single email to the configured boss
address (never a request-derived one) with subject
`Review Required: <projectName>`. -/
theorem complete_email_envelopes (cfg : Config) (body : ReqBody) (env : CompleteEnv)
    (rd : List (String × ReviewEntry)) (m : UploadMetadata)
    (hm : body.metadata = some m) :
    (∀ e cn ft ins fs, m.uploadType = some "raw" → m.editor = some e →
      m.clientName = some cn → m.footageType = some ft → m.instructions = some ins →
      body.files = some fs → env.sendResult = .ok () →
      (handleUploadComplete cfg body env rd).2.2.sendSuccesses.map
          (fun g => (g.toAddr, g.subject)) =
        [(e, "New Footage: " ++ cn ++ " - " ++ ft)] ∧
      (handleUploadComplete cfg body env rd).2.2.sendAttempts =
        (handleUploadComplete cfg body env rd).2.2.sendSuccesses) ∧
    (∀ pn fs, m.uploadType = some "edited" → m.projectName = some pn →
      body.files = some fs → env.sendResult = .ok () →
      (handleUploadComplete cfg body env rd).2.2.sendSuccesses.map
          (fun g => (g.toAddr, g.subject)) =
        [(cfg.BOSS_EMAIL, "Review Required: " ++ pn)] ∧
      (handleUploadComplete cfg body env rd).2.2.sendAttempts =
        (handleUploadComplete cfg body env rd).2.2.sendSuccesses) := by
  constructor
  · intro e cn ft ins fs ht he hcn hft hins hf hs
    simp [handleUploadComplete, hm, jsGet, ht, sendEditorEmail, he, hf,
      renderEditorHtmlParts, hins, hs, jsStr, hcn, hft]
  · intro pn fs ht hpn hf hs
    have ht2 : ¬ m.uploadType = some "raw" := by simp [ht]
    simp [handleUploadComplete, hm, jsGet, ht2, sendReviewEmail, hf, hs, jsStr, hpn]

/-- Witness for C4: a concrete edited-variant complete whose single email
goes to the configured boss address with the project-name subject. -/
theorem complete_email_envelopes_witness :
    (handleUploadComplete ⟨"b", "boss@x.com", "wf@x.com", "https://app"⟩
        { metadata := some { uploadType := some "edited", projectName := some "Promo" },
          files := some [] } ⟨[7], "t", 3, .ok ()⟩ []).2.2.sendSuccesses.map
        (fun g => (g.toAddr, g.subject)) =
      [("boss@x.com", "Review Required: Promo")] :=
  ((complete_email_envelopes ⟨"b", "boss@x.com", "wf@x.com", "https://app"⟩
    { metadata := some { uploadType := some "edited", projectName := some "Promo" },
      files := some [] } ⟨[7], "t", 3, .ok ()⟩ []
    { uploadType := some "edited", projectName := some "Promo" } rfl).2
    "Promo" [] rfl rfl rfl rfl).1

lemma complete_cases (cfg : Config) (body : ReqBody) (env : CompleteEnv)
    (rd : List (String × ReviewEntry)) :
    (resultOk (handleUploadComplete cfg body env rd).1 = false ∧
     (handleUploadComplete cfg body env rd).2.2.sendSuccesses = [] ∧
     (handleUploadComplete cfg body env rd).2.1 = rd) ∨
    (resultOk (handleUploadComplete cfg body env rd).1 = true ∧
     ∃ g, (handleUploadComplete cfg body env rd).2.2.sendSuccesses = [g] ∧
          (handleUploadComplete cfg body env rd).2.2.sendAttempts = [g]) := by
  cases hmeta : body.metadata with
  | none => left; simp [handleUploadComplete, jsGet, hmeta, resultOk]
  | some m =>
    by_cases ht : m.uploadType = some "raw"
    · cases he : m.editor with
      | none => left; simp [handleUploadComplete, jsGet, hmeta, ht, sendEditorEmail, he, resultOk]
      | some e =>
        cases hf : body.files with
        | none =>
          left
          simp [handleUploadComplete, jsGet, hmeta, ht, sendEditorEmail, he, hf, resultOk]
        | some fs =>
          cases hins : m.instructions with
          | none =>
            left
            simp [handleUploadComplete, jsGet, hmeta, ht, sendEditorEmail, he, hf,
              renderEditorHtmlParts, hins, resultOk]
          | some ins =>
            cases hs : env.sendResult with
            | error e2 =>
              left
              simp [handleUploadComplete, jsGet, hmeta, ht, sendEditorEmail, he, hf,
                renderEditorHtmlParts, hins, hs, resultOk]
            | ok v =>
              right
              simp [handleUploadComplete, jsGet, hmeta, ht, sendEditorEmail, he, hf,
                renderEditorHtmlParts, hins, hs, resultOk]
    · cases hf : body.files with
      | none => left; simp [handleUploadComplete, jsGet, hmeta, ht, sendReviewEmail, hf, resultOk]
      | some fs =>
        cases hs : env.sendResult with
        | error e2 =>
          left
          simp [handleUploadComplete, jsGet, hmeta, ht, sendReviewEmail, hf, hs, resultOk]
        | ok v =>
          right
          simp [handleUploadComplete, jsGet, hmeta, ht, sendReviewEmail, hf, hs, resultOk]

/-- Claim C6: `complete` is atomic: a successful invocation performs exactly
one attempted and one successful email send, and a failed invocation has no
successful send and leaves the review-state map exactly as it was (in
particular a failed send on the review path records nothing). -/
theorem complete_atomic_notification (cfg : Config) (body : ReqBody) (env : CompleteEnv)
    (rd : List (String × ReviewEntry)) :
    (resultOk (handleUploadComplete cfg body env rd).1 = true →
      (handleUploadComplete cfg body env rd).2.2.sendSuccesses.length = 1 ∧
      (handleUploadComplete cfg body env rd).2.2.sendAttempts.length = 1) ∧
    (resultOk (handleUploadComplete cfg body env rd).1 = false →
      (handleUploadComplete cfg body env rd).2.2.sendSuccesses = [] ∧
      (handleUploadComplete cfg body env rd).2.1 = rd) := by
  rcases complete_cases cfg body env rd with ⟨hko, hemp, hrd⟩ | ⟨hok, g, hsucc, hatt⟩
  · constructor
    · intro h; rw [hko] at h; cases h
    · intro _; exact ⟨hemp, hrd⟩
  · constructor
    · intro _; rw [hsucc, hatt]; exact ⟨rfl, rfl⟩
    · intro h; rw [hok] at h; cases h

/-- Witness for C6: a review-path complete whose send fails leaves the
review-state map empty and records no successful send. -/
theorem complete_atomic_notification_witness :
    (handleUploadComplete ⟨"b", "boss@x.com", "wf@x.com", "https://app"⟩
        { metadata := some { uploadType := some "edited", projectName := some "P" },
          files := some [] } ⟨[7], "t", 3, .error (.upstream "sendgrid down")⟩
        []).2.2.sendSuccesses = [] ∧
    (handleUploadComplete ⟨"b", "boss@x.com", "wf@x.com", "https://app"⟩
        { metadata := some { uploadType := some "edited", projectName := some "P" },
          files := some [] } ⟨[7], "t", 3, .error (.upstream "sendgrid down")⟩
        []).2.1 = [] :=
  (complete_atomic_notification ⟨"b", "boss@x.com", "wf@x.com", "https://app"⟩
    { metadata := some { uploadType := some "edited", projectName := some "P" },
      files := some [] } ⟨[7], "t", 3, .error (.upstream "sendgrid down")⟩ []).2 rfl

/-- Claim C8: a successful review-path complete draws a fresh review
identifier from 16 random bytes (32 lowercase hex characters), records
`{metadata, files, timestamp}` under exactly that identifier at the head of
the review-state map, and distinct random draws always give distinct
identifiers. -/
theorem review_id_fresh_and_recorded (cfg : Config) (body : ReqBody) (env : CompleteEnv)
    (rd : List (String × ReviewEntry)) (m : UploadMetadata) (fs : List UploadedFileRef)
    (hm : body.metadata = some m) (ht : ¬ m.uploadType = some "raw")
    (hf : body.files = some fs) (hs : env.sendResult = .ok ())
    (hlen : env.rand16.length = 16) :
    (handleUploadComplete cfg body env rd).2.1 =
      (bytesToHex env.rand16, ⟨m, fs, env.tStore⟩) :: rd ∧
    (bytesToHex env.rand16).length = 32 ∧
    (bytesToHex env.rand16).data.all isLowerHexChar = true ∧
    (∀ r2 : List (Fin 256), r2 ≠ env.rand16 → bytesToHex r2 ≠ bytesToHex env.rand16) := by
  refine ⟨?_, by rw [bytesToHex_length, hlen], bytesToHex_hex env.rand16, ?_⟩
  · simp [handleUploadComplete, hm, jsGet, ht, sendReviewEmail, hf, hs]
  · intro r2 hne h
    exact hne (bytesToHex_inj h)

/-- Witness for C8: a concrete successful review-path complete records its
entry under the 32-character hex id of its 16 random bytes. -/
theorem review_id_fresh_and_recorded_witness :
    (handleUploadComplete ⟨"b", "boss@x.com", "wf@x.com", "https://app"⟩
        { metadata := some { uploadType := some "edited", projectName := some "P" },
          files := some [] }
        ⟨[0, 1, 2, 3, 4, 5, 6, 7, 8, 9, 10, 11, 12, 13, 14, 15], "t", 99, .ok ()⟩
        []).2.1 =
      [(bytesToHex [0, 1, 2, 3, 4, 5, 6, 7, 8, 9, 10, 11, 12, 13, 14, 15],
        ⟨{ uploadType := some "edited", projectName := some "P" }, [], 99⟩)] ∧
    (bytesToHex ([0, 1, 2, 3, 4, 5, 6, 7, 8, 9, 10, 11, 12, 13, 14, 15] :
        List (Fin 256))).length = 32 := by
  have h := review_id_fresh_and_recorded ⟨"b", "boss@x.com", "wf@x.com", "https://app"⟩
    { metadata := some { uploadType := some "edited", projectName := some "P" },
      files := some [] }
    ⟨[0, 1, 2, 3, 4, 5, 6, 7, 8, 9, 10, 11, 12, 13, 14, 15], "t", 99, .ok ()⟩
    [] { uploadType := some "edited", projectName := some "P" } []
    rfl (by decide) rfl rfl rfl
  exact ⟨h.1, h.2.1⟩

/-- Claim C10: a raw-variant complete leaves the whole process state (auth
cache and review map) unchanged; a prepare invocation never changes the
review map; a complete invocation never changes the auth cache; an invalid
action changes nothing. -/
theorem handler_frame_effects (cfg : Config) (action : Option String) (body : ReqBody)
    (penv : PrepareEnv) (cenv : CompleteEnv) (s : GlobalState) :
    (∀ m, jsOrEmpty action = "complete" → body.metadata = some m →
      m.uploadType = some "raw" →
      (uploadHandler cfg action body penv cenv s).2.1 = s) ∧
    (jsOrEmpty action = "prepare" →
      (uploadHandler cfg action body penv cenv s).2.1.reviewData = s.reviewData) ∧
    (jsOrEmpty action = "complete" →
      (uploadHandler cfg action body penv cenv s).2.1.cache = s.cache) ∧
    (jsOrEmpty action ≠ "prepare" → jsOrEmpty action ≠ "complete" →
      (uploadHandler cfg action body penv cenv s).2.1 = s) := by
  refine ⟨?_, ?_, ?_, ?_⟩
  · intro m hact hm ht
    have hrd : (handleUploadComplete cfg body cenv s.reviewData).2.1 = s.reviewData := by
      simp [handleUploadComplete, hm, jsGet, ht]
    simp only [uploadHandler, hact]
    rw [if_pos trivial]
    cases hres : (handleUploadComplete cfg body cenv s.reviewData).1 with
    | ok v => simp [hres, hrd]
    | error e => simp [hres, hrd]
  · intro hact
    simp only [uploadHandler, hact]
    rw [if_pos trivial]
    cases hres : (handlePrepareUpload body penv s.cache).1 with
    | ok p => simp [hres]
    | error e => simp [hres]
  · intro hact
    simp only [uploadHandler, hact]
    rw [if_pos trivial]
    cases hres : (handleUploadComplete cfg body cenv s.reviewData).1 with
    | ok v => simp [hres]
    | error e => simp [hres]
  · intro h1 h2
    simp [uploadHandler, h1, h2]

/-- Witness for C10: a concrete raw-variant complete (whose editor email
send succeeds) leaves the process state untouched. -/
theorem handler_frame_effects_witness :
    (uploadHandler ⟨"b", "boss@x.com", "wf@x.com", "https://app"⟩ (some "complete")
        { metadata := some { uploadType := some "raw", editor := some "jane@x.com",
                             clientName := some "Acme", footageType := some "Wedding",
                             instructions := some "cut it" },
          files := some [] }
        ⟨0, 0, 0, [], .error (.upstream "n"), fun _ => .error (.upstream "n")⟩
        ⟨[], "t", 0, .ok ()⟩ ⟨⟨none, 0⟩, []⟩).2.1 = ⟨⟨none, 0⟩, []⟩ :=
  (handler_frame_effects ⟨"b", "boss@x.com", "wf@x.com", "https://app"⟩ (some "complete")
    { metadata := some { uploadType := some "raw", editor := some "jane@x.com",
                         clientName := some "Acme", footageType := some "Wedding",
                         instructions := some "cut it" },
      files := some [] }
    ⟨0, 0, 0, [], .error (.upstream "n"), fun _ => .error (.upstream "n")⟩
    ⟨[], "t", 0, .ok ()⟩ ⟨⟨none, 0⟩, []⟩).1
    { uploadType := some "raw", editor := some "jane@x.com", clientName := some "Acme",
      footageType := some "Wedding", instructions := some "cut it" } rfl rfl rfl

end NCMedia
